import Mathlib

/-!
Shallow embedding of the marketplace simulation core
(`src/core/market.py`, `src/agents/agent.py`, `src/agents/memory.py`).

Modelling conventions:
* Python floats are modelled as rationals (`ℚ`); Python ints as `ℤ`.
* Python's builtin `round` is round-half-to-even (banker's rounding);
  it is embedded as `pyRound` on `ℚ`.
* Timestamps are modelled as natural numbers.  For the memory-recency
  score, timestamps are taken at whole-hour granularity so that the
  exponential decay `decay_factor ** hours_passed` is a rational power
  with a natural exponent.
* Disk writes (`_save_offers`, `to_csv`) are I/O traces of the in-memory
  state and carry no extra state; they are omitted.
-/

namespace Marketplace

/-- A Python value that can appear in the `params` mapping an LLM decision
provides.  `none` models Python `None` (also the result of `dict.get` on a
missing key). -/
inductive PyVal where
  | none
  | str (s : String)
  | int (n : ℤ)
  | float (q : ℚ)
deriving Repr, DecidableEq

/-- The Python `type(value).__name__` string for the modelled Python values. -/
def PyVal.typeName : PyVal → String
  | .none => "NoneType"
  | .str _ => "str"
  | .int _ => "int"
  | .float _ => "float"

/-- The textual form of a value as interpolated into an f-string error
message (`f"...'{value}'..."`). -/
def PyVal.reprStr : PyVal → String
  | .none => "None"
  | .str s => s
  | .int n => toString n
  | .float q => toString q

/-- Value of a list of decimal digit characters. -/
def digitsVal (cs : List Char) : ℕ :=
  cs.foldl (fun acc c => 10 * acc + (c.toNat - 48)) 0

/-- Python `float(s)` on a string, for the decimal-literal fragment
`[+-]? digits [. digits]` (with surrounding whitespace stripped), which is
the shape of every numeric string the agent pipeline feeds it.  Returns
`none` when the string is not such a literal (Python raises `ValueError`). -/
def pyParseFloat (s : String) : Option ℚ :=
  let t := s.trim
  let (sign, body) :=
    if t.startsWith "-" then ((-1 : ℚ), t.drop 1)
    else if t.startsWith "+" then ((1 : ℚ), t.drop 1)
    else ((1 : ℚ), t)
  let cs := body.toList
  if cs.isEmpty then Option.none
  else if ¬ cs.all (fun c => c.isDigit || c == '.') then Option.none
  else
    match body.splitOn "." with
    | [w] => some (sign * (digitsVal w.toList : ℚ))
    | [w, f] =>
        if w.isEmpty ∧ f.isEmpty then Option.none
        else some (sign * ((digitsVal w.toList : ℚ) +
          (digitsVal f.toList : ℚ) / (10 ^ f.length)))
    | _ => Option.none

/-- Python's builtin `round` to the nearest integer: round half to even
(banker's rounding). -/
def pyRound (q : ℚ) : ℤ :=
  let f := ⌊q⌋
  if q - f < 1 / 2 then f
  else if q - f > 1 / 2 then f + 1
  else if f % 2 = 0 then f else f + 1

/-- Python `float(value)` on the modelled values.  `float(None)` raises
`TypeError`, modelled as `none` (callers treat it as a conversion failure). -/
def pyFloat : PyVal → Option ℚ
  | .none => Option.none
  | .str s => pyParseFloat s
  | .int n => some (n : ℚ)
  | .float q => some q

/-- The data the `ValueError` message raised by `_safe_float` / `_safe_int`
carries: the parameter name, the offending raw value as interpolated, and
`type(value).__name__`. -/
structure CoercionError where
  param : String
  rawValue : String
  typeName : String
deriving Repr, DecidableEq

/-- Embeds `TradingAgent._safe_float` (src/agents/agent.py lines 21-44):
`None`, `""` and `"null"` coerce to `None`; otherwise `float(value)` is
attempted and failure raises a `ValueError` carrying the parameter name,
raw value and origin type. -/
def safe_float (value : PyVal) (param_name : String) :
    Except CoercionError (Option ℚ) :=
  if value = .none ∨ value = .str "" ∨ value = .str "null" then
    .ok Option.none
  else
    match pyFloat value with
    | some q => .ok (some q)
    | Option.none => .error ⟨param_name, value.reprStr, value.typeName⟩

/-- Embeds `TradingAgent._safe_int` (src/agents/agent.py lines 46-70):
same absent-value gate, then `int(round(float(value)))`. -/
def safe_int (value : PyVal) (param_name : String) :
    Except CoercionError (Option ℤ) :=
  if value = .none ∨ value = .str "" ∨ value = .str "null" then
    .ok Option.none
  else
    match pyFloat value with
    | some q => .ok (some (pyRound q))
    | Option.none => .error ⟨param_name, value.reprStr, value.typeName⟩

/-- Embeds `TradingAgent._safe_str` (src/agents/agent.py lines 72-89):
`None`, `"null"` and `""` become `None`; any other value is stringified
and stripped of surrounding whitespace. -/
def safe_str (value : PyVal) : Option String :=
  match value with
  | .none => Option.none
  | .str s => if s = "null" ∨ s = "" then Option.none else some s.trim
  | .int n => some (toString n).trim
  | .float q => some (toString q).trim

/-- Python `dict` lookup on an association list (Python dicts keep
insertion order; keys are unique in every dict the program builds). -/
def dictGet {β : Type} : List (String × β) → String → Option β
  | [], _ => Option.none
  | p :: t, k => if p.1 = k then some p.2 else dictGet t k

/-- Python `params.get(key)`: the value stored under `key`, or `None` when the key
is missing. -/
def pyGet (params : List (String × PyVal)) (key : String) : PyVal :=
  (dictGet params key).getD .none

/-- An open sell offer on the bulletin board (`src/core/market.py` lines
43-50). -/
structure Offer where
  offer_id : ℤ
  seller : String
  item : String
  price : ℚ
  quantity : ℤ
  timestamp : ℕ
deriving Repr, DecidableEq

/-- One row of the transaction ledger (`src/core/market.py` lines 72-79). -/
structure TradeRecord where
  timestamp : ℕ
  seller : String
  buyer : String
  item : String
  price : ℚ
  quantity : ℤ
deriving Repr, DecidableEq

/-- State of `MarketWorld.__init__`: the ledger, the active offers and the monotonic
offer counter. -/
structure MarketWorld where
  ledger : List TradeRecord
  active_offers : List Offer
  offer_counter : ℤ
deriving Repr, DecidableEq

/-- The freshly initialised market. -/
def MarketWorld.init : MarketWorld :=
  { ledger := [], active_offers := [], offer_counter := 0 }

/-- Embeds `MarketWorld.post_offer` (src/core/market.py lines 21-53).  The counter
is incremented first; the quantity is forced to an integer with
`int(round(float(quantity)))`; a non-positive rounded quantity returns
`None` (no offer appended), otherwise the offer is appended and its id
returned. -/
def post_offer (w : MarketWorld) (seller_name item : String)
    (price quantity : ℚ) (now : ℕ) : MarketWorld × Option ℤ :=
  let counter := w.offer_counter + 1
  let qty_int := pyRound quantity
  if qty_int ≤ 0 then
    ({ w with offer_counter := counter }, Option.none)
  else
    let offer : Offer :=
      { offer_id := counter, seller := seller_name, item := item,
        price := price, quantity := qty_int, timestamp := now }
    ({ w with offer_counter := counter,
              active_offers := w.active_offers ++ [offer] },
     some counter)

/-- The result dict of `MarketWorld.execute_trade`:
`{"status": "success", "data": ...}` or `{"status": "error", "message": ...}`. -/
inductive TradeResult where
  | success (data : TradeRecord)
  | error (message : String)
deriving Repr, DecidableEq

/-- The lookup `next((o for o in self.active_offers if o["offer_id"] == offer_id), None)`. -/
def findOffer (w : MarketWorld) (offer_id : ℤ) : Option Offer :=
  w.active_offers.find? (fun o => o.offer_id == offer_id)

/-- Embeds `MarketWorld.execute_trade` (src/core/market.py lines 55-97).  Looks the
offer up by exact id; if absent returns the error result and changes
nothing; otherwise appends the trade record to the ledger and removes the
offer from the active board. -/
def execute_trade (w : MarketWorld) (buyer_name : String) (offer_id : ℤ)
    (now : ℕ) : MarketWorld × TradeResult :=
  match findOffer w offer_id with
  | Option.none => (w, .error "Offer not found")
  | some offer =>
    let new_trade : TradeRecord :=
      { timestamp := now, seller := offer.seller, buyer := buyer_name,
        item := offer.item, price := offer.price, quantity := offer.quantity }
    ({ w with ledger := w.ledger ++ [new_trade],
              active_offers :=
                w.active_offers.eraseP (fun o => o.offer_id == offer_id) },
     .success new_trade)

/-- Embeds `MarketWorld.get_market_state` (src/core/market.py lines 99-106). -/
def get_market_state (w : MarketWorld) : List Offer :=
  w.active_offers

/-- Embeds `MemoryEntry` (src/agents/memory.py lines 4-9).  `timestamp` is in
whole hours (see the file header); `metadata` is the open key-value map. -/
structure MemoryEntry where
  content : String
  importance : ℤ
  timestamp : ℕ
  metadata : List (String × String)
deriving Repr, DecidableEq

/-- Embeds `MemoryStream` (src/agents/memory.py lines 11-18): the append-only
entry list and the per-hour decay factor (default 0.99). -/
structure MemoryStream where
  entries : List MemoryEntry
  decay_factor : ℚ
deriving Repr, DecidableEq

/-- An empty stream with the default decay factor `0.99`. -/
def MemoryStream.init : MemoryStream :=
  { entries := [], decay_factor := 99 / 100 }

/-- Embeds `MemoryStream.add_memory` (src/agents/memory.py lines 16-18). -/
def MemoryStream.add_memory (m : MemoryStream) (content : String)
    (importance : ℤ) (metadata : List (String × String)) (now : ℕ) :
    MemoryStream :=
  { m with entries := m.entries ++
      [{ content := content, importance := importance, timestamp := now,
         metadata := metadata }] }

/-- The score one entry receives in `retrieve_relevant_memories`
(src/agents/memory.py lines 29-43): recency decay plus `importance/10`
plus `1.0` when a (truthy) `partner_name` matches the entry's recorded
partner metadata. -/
def entryScore (decay : ℚ) (now : ℕ) (partner_name : Option String)
    (e : MemoryEntry) : ℚ :=
  let hours_passed := now - e.timestamp
  let recency_score := decay ^ hours_passed
  let importance_score := (e.importance : ℚ) / 10
  let relevance_score : ℚ :=
    match partner_name with
    | some p => if p ≠ "" ∧ dictGet e.metadata "partner" = some p then 1 else 0
    | Option.none => 0
  recency_score + importance_score + relevance_score

/-- The scored entries, each paired with its original insertion index
(the loop over `self.entries` in source order). -/
def scoredEntries (m : MemoryStream) (partner_name : Option String)
    (now : ℕ) : List (ℚ × ℕ × MemoryEntry) :=
  m.entries.enum.map (fun p => (entryScore m.decay_factor now partner_name p.2, p.1, p.2))

/-- The order `scored_memories.sort(key=lambda x: x[0], reverse=True)`
realises: by score descending and, between equal scores (Python's sort is
stable), by insertion index ascending. -/
def rankRel (a b : ℚ × ℕ × MemoryEntry) : Prop :=
  b.1 < a.1 ∨ (a.1 = b.1 ∧ a.2.1 ≤ b.2.1)

instance : DecidableRel rankRel := fun a b => by
  unfold rankRel
  infer_instance

/-- Embeds `MemoryStream.retrieve_relevant_memories` (src/agents/memory.py lines
20-48): score every entry, sort descending (stable), return the content
strings of the top `limit`.  `current_query` is accepted and unused, as in
the source. -/
def retrieve_relevant_memories (m : MemoryStream) (current_query : String)
    (partner_name : Option String) (limit : ℕ) (now : ℕ) : List String :=
  let _ := current_query
  let sorted := List.insertionSort rankRel (scoredEntries m partner_name now)
  (sorted.take limit).map (fun t => t.2.2.content)

/-- The `TradingAgent` private state (src/agents/agent.py lines 9-17): name,
role text, budget, inventory and memory.  The market is passed explicitly
to the handlers. -/
structure TradingAgent where
  name : String
  role : String
  budget : ℚ
  inventory : List (String × ℤ)
  memory : MemoryStream
deriving Repr, DecidableEq

/-- Python `self.inventory.get(item, 0)`. -/
def invGet (inv : List (String × ℤ)) (item : String) : ℤ :=
  (dictGet inv item).getD 0

/-- Python `self.inventory[item] = v`: update in place when the key exists,
append otherwise (Python dicts keep insertion order). -/
def invSet (inv : List (String × ℤ)) (item : String) (v : ℤ) :
    List (String × ℤ) :=
  if (dictGet inv item).isSome then
    inv.map (fun p => if p.1 = item then (item, v) else p)
  else
    inv ++ [(item, v)]

/-- How `TradingAgent._handle_buy` ends: an early return on a conversion
error, an early return when `offer_id` is absent, a successful trade, or
a failed trade. -/
inductive BuyOutcome where
  | coercion (e : CoercionError)
  | no_offer_id
  | success (data : TradeRecord)
  | failed (message : String)
deriving Repr, DecidableEq

/-- Embeds `TradingAgent._handle_buy` (src/agents/agent.py lines 184-229).
Coerces `offer_id` and `quantity`; rejects on a conversion error or a
missing `offer_id`; calls `execute_trade`; on success debits the budget by
`price * quantity` (the full traded quantity — the requested `quantity`
is never consulted) and credits the inventory, recording an importance-7
memory with the seller as partner; on failure records an importance-4
memory and changes nothing else. -/
def handle_buy (a : TradingAgent) (w : MarketWorld)
    (params : List (String × PyVal)) (now : ℕ) :
    TradingAgent × MarketWorld × BuyOutcome :=
  match safe_int (pyGet params "offer_id") "offer_id" with
  | .error e => (a, w, .coercion e)
  | .ok offer_id? =>
    match safe_int (pyGet params "quantity") "quantity" with
    | .error e => (a, w, .coercion e)
    | .ok _quantity? =>
      match offer_id? with
      | Option.none => (a, w, .no_offer_id)
      | some offer_id =>
        match execute_trade w a.name offer_id now with
        | (w', .success data) =>
          let item := data.item
          let price := data.price
          let qty := data.quantity
          let total_cost := price * (qty : ℚ)
          let a' : TradingAgent :=
            { a with
              budget := a.budget - total_cost,
              inventory := invSet a.inventory item (invGet a.inventory item + qty),
              memory := a.memory.add_memory
                ("Bought " ++ toString qty ++ " " ++ item ++ " from " ++
                  data.seller ++ " for $" ++ toString total_cost ++ ".")
                7 [("partner", data.seller), ("type", "trade_success")] now }
          (a', w', .success data)
        | (w', .error message) =>
          let a' : TradingAgent :=
            { a with
              memory := a.memory.add_memory
                ("Attempted to buy offer " ++ toString offer_id ++
                  " but failed: " ++ message) 4 [] now }
          (a', w', .failed message)

/-- How `TradingAgent._handle_post` ends: a conversion error, the
missing/invalid-parameter rejection (with the list of diagnostics), the
item-not-in-inventory rejection, the insufficient-count rejection, or a
committed post carrying `post_offer`'s return value. -/
inductive PostOutcome where
  | coercion (e : CoercionError)
  | invalid (missing : List String)
  | not_in_inventory
  | insufficient (qty available : ℤ)
  | posted (result : Option ℤ)
deriving Repr, DecidableEq

/-- Whether a `PostOutcome` is the committed-post case. -/
def PostOutcome.isPosted : PostOutcome → Bool
  | .posted _ => true
  | _ => false

/-- Python truthiness test `not item` on the coerced item string. -/
def strFalsy : Option String → Bool
  | Option.none => true
  | some s => s = ""

/-- Embeds `TradingAgent._handle_post` (src/agents/agent.py lines 231-278).
Coerces `item`/`price`/`qty`; collects the missing/invalid diagnostics;
rejects when any exists, when the item is not an inventory key, or when
`qty` exceeds the available count; otherwise calls `post_offer`
(discarding its result), deducts the inventory and records an
importance-3 memory. -/
def handle_post (a : TradingAgent) (w : MarketWorld)
    (params : List (String × PyVal)) (now : ℕ) :
    TradingAgent × MarketWorld × PostOutcome :=
  let item? := safe_str (pyGet params "item")
  match safe_float (pyGet params "price") "price" with
  | .error e => (a, w, .coercion e)
  | .ok price? =>
    match safe_int (pyGet params "qty") "qty" with
    | .error e => (a, w, .coercion e)
    | .ok qty? =>
      let missing : List String :=
        (if strFalsy item? then ["item"] else []) ++
        (if price?.elim true (fun p => p ≤ 0) then ["price (must be > 0)"] else []) ++
        (if qty?.elim true (fun q => q ≤ 0) then ["qty (must be integer > 0)"] else [])
      if missing ≠ [] then (a, w, .invalid missing)
      else
        let item := item?.getD ""
        let price := price?.getD 0
        let qty := qty?.getD 0
        if (dictGet a.inventory item).isNone then (a, w, .not_in_inventory)
        else
          let available := invGet a.inventory item
          if qty > available then (a, w, .insufficient qty available)
          else
            let res := post_offer w a.name item price (qty : ℚ) now
            let a' : TradingAgent :=
              { a with
                inventory := invSet a.inventory item (invGet a.inventory item - qty),
                memory := a.memory.add_memory
                  ("Posted an offer to sell " ++ toString qty ++ " " ++ item ++
                    " for $" ++ toString price ++ " each.") 3 [] now }
            (a', res.1, .posted res.2)

/-- One buying agent acting inside a population of agents: agent `i` runs
`_handle_buy` against the shared market; every other agent is untouched
(no other agent's state is even an input of the handler). -/
def buyStep (agents : List TradingAgent) (i : ℕ) (w : MarketWorld)
    (params : List (String × PyVal)) (now : ℕ) :
    List TradingAgent × MarketWorld × BuyOutcome :=
  match agents[i]? with
  | Option.none => (agents, w, .no_offer_id)
  | some a =>
    let r := handle_buy a w params now
    (agents.set i r.1, r.2.1, r.2.2)

/-! ### Helper lemmas -/

/-- Python `round` is the identity on integers. -/
theorem pyRound_intCast (n : ℤ) : pyRound (n : ℚ) = n := by
  simp [pyRound, Int.floor_intCast]

/-- Coercing a genuine Python int succeeds and returns it unchanged. -/
theorem safe_int_int (n : ℤ) (p : String) :
    safe_int (.int n) p = .ok (some n) := by
  simp [safe_int, pyFloat, pyRound_intCast]

/-- After an in-place update of an existing key, looking the key up yields
the new value. -/
theorem dictGet_map_update (item : String) (v : ℤ) :
    ∀ inv : List (String × ℤ), (dictGet inv item).isSome →
      dictGet (inv.map (fun p => if p.1 = item then (item, v) else p)) item =
        some v := by
  intro inv
  induction inv with
  | nil => intro h; simp [dictGet] at h
  | cons p t ih =>
    intro h
    by_cases hp : p.1 = item
    · simp [dictGet, hp]
    · simp only [dictGet, hp, if_false, List.map_cons, if_neg hp] at h ⊢
      exact ih h

/-- Appending a fresh binding for an absent key makes the key map to the
new value. -/
theorem dictGet_append_fresh (item : String) (v : ℤ) :
    ∀ inv : List (String × ℤ), (dictGet inv item).isSome = false →
      dictGet (inv ++ [(item, v)]) item = some v := by
  intro inv
  induction inv with
  | nil => intro _; simp [dictGet]
  | cons p t ih =>
    intro h
    by_cases hp : p.1 = item
    · simp [dictGet, hp] at h
    · simp only [dictGet, hp, if_false, List.cons_append, if_neg hp] at h ⊢
      exact ih h

/-- An `invSet` followed by `invGet` on the same key returns the value set. -/
theorem invGet_invSet (inv : List (String × ℤ)) (item : String) (v : ℤ) :
    invGet (invSet inv item v) item = v := by
  unfold invGet invSet
  by_cases h : (dictGet inv item).isSome
  · rw [if_pos h, dictGet_map_update item v inv h]
    rfl
  · rw [if_neg h, dictGet_append_fresh item v inv (by simpa using h)]
    rfl

/-- After erasing the (unique, by `Nodup` of the ids) offer with a given
id, no active offer carries that id. -/
theorem eraseP_offer_id (oid : ℤ) :
    ∀ l : List Offer, (l.map Offer.offer_id).Nodup →
      ∀ x ∈ l.eraseP (fun o => o.offer_id == oid), x.offer_id ≠ oid := by
  intro l
  induction l with
  | nil => intro _ x hx; simp [List.eraseP] at hx
  | cons h t ih =>
    intro hnd x hx
    rw [List.map_cons, List.nodup_cons] at hnd
    rw [List.eraseP_cons] at hx
    by_cases hp : h.offer_id = oid
    · simp only [hp, beq_self_eq_true, cond_true] at hx
      intro hxid
      exact hnd.1 (by
        have hm : x.offer_id ∈ t.map Offer.offer_id := List.mem_map_of_mem _ hx
        rwa [hxid, ← hp] at hm)
    · have hb : (h.offer_id == oid) = false := by simp [hp]
      simp only [hb, cond_false] at hx
      rcases List.mem_cons.mp hx with rfl | hx
      · exact hp
      · exact ih hnd.2 x hx

/-- Replacing one element of a list changes the sum of budgets by the
difference of that element's budget. -/
theorem sum_budget_set :
    ∀ (l : List TradingAgent) (i : ℕ) (a a' : TradingAgent), l[i]? = some a →
      ((l.set i a').map TradingAgent.budget).sum =
        (l.map TradingAgent.budget).sum - a.budget + a'.budget := by
  intro l
  induction l with
  | nil => intro i a a' h; simp at h
  | cons x t ih =>
    intro i a a' h
    cases i with
    | zero =>
      simp only [List.getElem?_cons_zero, Option.some_inj] at h
      subst h
      simp [List.set]
      ring
    | succ n =>
      rw [List.getElem?_cons_succ] at h
      simp only [List.set, List.map_cons, List.sum_cons, ih n a a' h]
      ring

/-- Shape of a successful `_handle_buy`: the budget is debited by
`price * quantity` of the traded record, the inventory is credited by its
quantity, the memory grows by one importance-7 entry naming the seller as
partner, and the market is the post-trade market. -/
theorem handle_buy_success (a : TradingAgent) (w : MarketWorld)
    (params : List (String × PyVal)) (now : ℕ) (data : TradeRecord)
    (h : (handle_buy a w params now).2.2 = .success data) :
    (handle_buy a w params now).1.budget =
      a.budget - data.price * (data.quantity : ℚ) ∧
    (handle_buy a w params now).1.inventory =
      invSet a.inventory data.item (invGet a.inventory data.item + data.quantity) ∧
    (handle_buy a w params now).1.name = a.name ∧
    (handle_buy a w params now).1.role = a.role := by
  rcases h1 : safe_int (pyGet params "offer_id") "offer_id" with e | oid?
  · simp [handle_buy, h1] at h
  · rcases h2 : safe_int (pyGet params "quantity") "quantity" with e | q?
    · simp [handle_buy, h1, h2] at h
    · rcases oid? with _ | oid
      · simp [handle_buy, h1, h2] at h
      · rcases hE : execute_trade w a.name oid now with ⟨w', r⟩
        rcases r with d | msg
        · simp only [handle_buy, h1, h2, hE, BuyOutcome.success.injEq] at h
          subst h
          simp [handle_buy, h1, h2, hE]
        · simp [handle_buy, h1, h2, hE] at h

/-- Every run of `_handle_post` either commits a post or leaves the agent
and the market exactly as they were. -/
theorem handle_post_cases (a : TradingAgent) (w : MarketWorld)
    (params : List (String × PyVal)) (now : ℕ) :
    (handle_post a w params now).2.2.isPosted = true ∨
    ((handle_post a w params now).1 = a ∧ (handle_post a w params now).2.1 = w) := by
  rcases hp : safe_float (pyGet params "price") "price" with e | price?
  · right
    simp [handle_post, hp]
  · rcases hq : safe_int (pyGet params "qty") "qty" with e | qty?
    · right
      simp [handle_post, hp, hq]
    · simp only [handle_post, hp, hq]
      repeat' split
      all_goals first
        | (right; exact ⟨rfl, rfl⟩)
        | (left; rfl)

/-- The ranking order is total. -/
instance : IsTotal (ℚ × ℕ × MemoryEntry) rankRel := by
  constructor
  intro a b
  unfold rankRel
  rcases lt_trichotomy a.1 b.1 with h | h | h
  · exact Or.inr (Or.inl h)
  · rcases le_total a.2.1 b.2.1 with hi | hi
    · exact Or.inl (Or.inr ⟨h, hi⟩)
    · exact Or.inr (Or.inr ⟨h.symm, hi⟩)
  · exact Or.inl (Or.inl h)

/-- The ranking order is transitive. -/
instance : IsTrans (ℚ × ℕ × MemoryEntry) rankRel := by
  constructor
  intro a b c hab hbc
  unfold rankRel at hab hbc ⊢
  rcases hab with hab | ⟨he, hi⟩ <;> rcases hbc with hbc | ⟨he2, hi2⟩
  · exact Or.inl (by linarith)
  · exact Or.inl (by rw [← he2]; exact hab)
  · exact Or.inl (by rw [he]; exact hbc)
  · exact Or.inr ⟨he.trans he2, le_trans hi hi2⟩

/-! ### Claim theorems -/

/-- C4, counterexample: contrary to the claim, a `post_offer` whose
quantity rounds to an integer `≤ 0` DOES advance the offer-id counter.
Posting quantity 0.3 on a fresh market is rejected (returns `None`,
creates no offer) yet leaves the counter at 1 instead of 0, so the next
successful offer gets id 2 and a gap appears in the id sequence. -/
theorem C4_counterexample :
    (post_offer MarketWorld.init "S" "Wood" 1 (3 / 10) 0).2 = Option.none ∧
    (post_offer MarketWorld.init "S" "Wood" 1 (3 / 10) 0).1.active_offers = [] ∧
    (post_offer MarketWorld.init "S" "Wood" 1 (3 / 10) 0).1.offer_counter ≠
      MarketWorld.init.offer_counter := by
  with_unfolding_all decide

/-- C4, amended: a `post_offer` call whose quantity rounds to an integer
`≤ 0` is rejected via the distinguishable result `None` (not an
exception), no offer is created and the open-offer set (and ledger) are
unchanged — but the offer-id counter IS advanced by the rejected call, so
the rejected call consumes an identity. -/
theorem C4_amended (w : MarketWorld) (s i : String) (p q : ℚ) (now : ℕ)
    (h : pyRound q ≤ 0) :
    post_offer w s i p q now =
      ({ w with offer_counter := w.offer_counter + 1 }, Option.none) := by
  simp [post_offer, h]

/-- Witness for C4, amended, at the concrete rejected posting of
quantity 0.3. -/
theorem C4_amended_witness :
    post_offer MarketWorld.init "S" "Wood" 1 (3 / 10) 0 =
      ({ MarketWorld.init with
          offer_counter := MarketWorld.init.offer_counter + 1 },
       Option.none) :=
  C4_amended MarketWorld.init "S" "Wood" 1 (3 / 10) 0 (by with_unfolding_all decide)

/-- C5, counterexample: the stored quantity is produced by Python's
`round`, which is round-half-to-even, not round-half-away-from-zero:
posting quantity 2.5 stores quantity 2, not the 3 the claim requires. -/
theorem C5_counterexample :
    ((post_offer MarketWorld.init "S" "Wood" 1 (5 / 2) 0).1.active_offers.map
        Offer.quantity = [2]) ∧
    ¬ ((post_offer MarketWorld.init "S" "Wood" 1 (5 / 2) 0).1.active_offers.map
        Offer.quantity = [3]) := by
  with_unfolding_all decide

/-- C5, amended: for every `post_offer(seller, item, price, q)` where `q`
rounds *half-to-even* (Python `round`) to a positive integer `k`, exactly
one new offer is appended whose stored quantity is exactly `k`, the
open-offer count increases by exactly 1, and the new offer's id (the
incremented counter) is returned; e.g. q = 2.5 yields stored quantity 2. -/
theorem C5_amended (w : MarketWorld) (s i : String) (p q : ℚ) (now : ℕ)
    (k : ℤ) (hk : pyRound q = k) (hpos : 0 < k) :
    post_offer w s i p q now =
      ({ w with
          offer_counter := w.offer_counter + 1,
          active_offers := w.active_offers ++
            [{ offer_id := w.offer_counter + 1, seller := s, item := i,
               price := p, quantity := k, timestamp := now }] },
       some (w.offer_counter + 1)) := by
  simp [post_offer, hk, not_le.mpr hpos]

/-- Witness for C5, amended, at the concrete posting of quantity 2.5
(stored as 2). -/
theorem C5_amended_witness :
    post_offer MarketWorld.init "S" "Wood" 1 (5 / 2) 0 =
      ({ MarketWorld.init with
          offer_counter := MarketWorld.init.offer_counter + 1,
          active_offers := MarketWorld.init.active_offers ++
            [{ offer_id := MarketWorld.init.offer_counter + 1, seller := "S",
               item := "Wood", price := 1, quantity := 2, timestamp := 0 }] },
       some (MarketWorld.init.offer_counter + 1)) :=
  C5_amended MarketWorld.init "S" "Wood" 1 (5 / 2) 0 2 (by with_unfolding_all decide) (by decide)

/-- C8: the numeric coercions treat the empty string, the literal string
"null" and a missing key (which `params.get` turns into `None`) as "no
value provided" without error; `_safe_int "5.7"` gives 6 and
`_safe_float "5"` gives 5.0; and a non-convertible value such as "abc"
produces a typed coercion error carrying the parameter name, the
offending raw value and the raw value's origin type. -/
theorem C8_coercion (p : String) :
    safe_int (PyVal.str "") p = .ok Option.none ∧
    safe_int (PyVal.str "null") p = .ok Option.none ∧
    safe_int PyVal.none p = .ok Option.none ∧
    safe_float (PyVal.str "") p = .ok Option.none ∧
    safe_float (PyVal.str "null") p = .ok Option.none ∧
    safe_float PyVal.none p = .ok Option.none ∧
    safe_int (pyGet [] "quantity") p = .ok Option.none ∧
    safe_int (PyVal.str "5.7") p = .ok (some 6) ∧
    safe_float (PyVal.str "5") p = .ok (some 5) ∧
    safe_int (PyVal.str "abc") p = .error ⟨p, "abc", "str"⟩ ∧
    safe_float (PyVal.str "abc") p = .error ⟨p, "abc", "str"⟩ := by
  with_unfolding_all exact ⟨rfl, rfl, rfl, rfl, rfl, rfl, rfl, rfl, rfl, rfl, rfl⟩

/-- C1: a successful `execute_trade` on an offer present in the open set
removes that offer's id from `get_market_state`, grows the trade history
by exactly one record, and that record's seller, item, price and quantity
equal those of the consumed offer (the full posted quantity, never a
partial fill).  The `Nodup` hypothesis is the id-uniqueness invariant
every reachable market satisfies, ids being assigned by a strictly
increasing counter. -/
theorem C1_trade_consumes_offer (w : MarketWorld) (buyer : String)
    (oid : ℤ) (now : ℕ) (o : Offer)
    (hnd : (w.active_offers.map Offer.offer_id).Nodup)
    (hfind : findOffer w oid = some o) :
    (∀ x ∈ get_market_state (execute_trade w buyer oid now).1,
      x.offer_id ≠ oid) ∧
    (execute_trade w buyer oid now).1.ledger.length = w.ledger.length + 1 ∧
    (execute_trade w buyer oid now).2 = .success
      { timestamp := now, seller := o.seller, buyer := buyer,
        item := o.item, price := o.price, quantity := o.quantity } := by
  refine ⟨?_, ?_, ?_⟩
  · simp only [execute_trade, hfind, get_market_state]
    exact eraseP_offer_id oid w.active_offers hnd
  · simp [execute_trade, hfind]
  · simp [execute_trade, hfind]

/-- Witness for C1 at a one-offer market. -/
theorem C1_trade_consumes_offer_witness :
    (∀ x ∈ get_market_state
        (execute_trade
          ⟨[], [⟨1, "S", "Wood", 15, 10, 0⟩], 1⟩ "B" 1 7).1,
      x.offer_id ≠ 1) ∧
    (execute_trade ⟨[], [⟨1, "S", "Wood", 15, 10, 0⟩], 1⟩ "B" 1 7).1.ledger.length =
      ([] : List TradeRecord).length + 1 ∧
    (execute_trade ⟨[], [⟨1, "S", "Wood", 15, 10, 0⟩], 1⟩ "B" 1 7).2 = .success
      { timestamp := 7, seller := "S", buyer := "B", item := "Wood",
        price := 15, quantity := 10 } :=
  C1_trade_consumes_offer ⟨[], [⟨1, "S", "Wood", 15, 10, 0⟩], 1⟩ "B" 1 7
    ⟨1, "S", "Wood", 15, 10, 0⟩ (by decide) (by with_unfolding_all decide)

/-- C2: a successful `BuyCommand` debits the buyer's budget by exactly
`price * quantity` of the consumed offer's full posted quantity and
credits the buyer's inventory by that quantity, regardless of the
requested `quantity` parameter (any coercible value `q?` leads to the
same full transfer), and with no credit check (no hypothesis constrains
the budget, which may become negative as in the witness below). -/
theorem C2_buy_debits_full_quantity (a : TradingAgent) (w : MarketWorld)
    (params : List (String × PyVal)) (now : ℕ) (oid : ℤ) (o : Offer)
    (q? : Option ℤ)
    (hoid : pyGet params "offer_id" = PyVal.int oid)
    (hq : safe_int (pyGet params "quantity") "quantity" = .ok q?)
    (hfind : findOffer w oid = some o) :
    (handle_buy a w params now).1.budget =
      a.budget - o.price * (o.quantity : ℚ) ∧
    invGet (handle_buy a w params now).1.inventory o.item =
      invGet a.inventory o.item + o.quantity ∧
    (handle_buy a w params now).2.2 = .success
      { timestamp := now, seller := o.seller, buyer := a.name,
        item := o.item, price := o.price, quantity := o.quantity } := by
  have h1 : safe_int (pyGet params "offer_id") "offer_id" = .ok (some oid) := by
    rw [hoid]
    exact safe_int_int oid "offer_id"
  have hE : execute_trade w a.name oid now =
      ({ w with
          ledger := w.ledger ++ [⟨now, o.seller, a.name, o.item, o.price, o.quantity⟩],
          active_offers := w.active_offers.eraseP (fun x => x.offer_id == oid) },
       .success ⟨now, o.seller, a.name, o.item, o.price, o.quantity⟩) := by
    simp only [execute_trade, hfind]
  refine ⟨?_, ?_, ?_⟩ <;> simp [handle_buy, h1, hq, hE, invGet_invSet]

/-- Witness for C2 at the spec scenario: budget 100, offer 15.0 × 10;
the trade succeeds, the budget becomes −50 (negative: no credit check)
and the inventory becomes Wood ↦ 10. -/
theorem C2_buy_debits_full_quantity_witness :
    (handle_buy ⟨"B", "buyer", 100, [], MemoryStream.init⟩
        ⟨[], [⟨1, "S", "Wood", 15, 10, 0⟩], 1⟩
        [("offer_id", PyVal.int 1), ("quantity", PyVal.int 10)] 1).1.budget =
      (-50 : ℚ) ∧
    invGet (handle_buy ⟨"B", "buyer", 100, [], MemoryStream.init⟩
        ⟨[], [⟨1, "S", "Wood", 15, 10, 0⟩], 1⟩
        [("offer_id", PyVal.int 1), ("quantity", PyVal.int 10)] 1).1.inventory
      "Wood" = 10 ∧
    (handle_buy ⟨"B", "buyer", 100, [], MemoryStream.init⟩
        ⟨[], [⟨1, "S", "Wood", 15, 10, 0⟩], 1⟩
        [("offer_id", PyVal.int 1), ("quantity", PyVal.int 10)] 1).2.2 =
      .success ⟨1, "S", "B", "Wood", 15, 10⟩ := by
  obtain ⟨hb, hi, hs⟩ := C2_buy_debits_full_quantity
    ⟨"B", "buyer", 100, [], MemoryStream.init⟩
    ⟨[], [⟨1, "S", "Wood", 15, 10, 0⟩], 1⟩
    [("offer_id", PyVal.int 1), ("quantity", PyVal.int 10)] 1 1
    ⟨1, "S", "Wood", 15, 10, 0⟩ (some 10) rfl
    (by with_unfolding_all rfl) (by with_unfolding_all rfl)
  refine ⟨?_, ?_, hs⟩
  · rw [hb]
    with_unfolding_all decide
  · rw [hi]
    with_unfolding_all decide

/-- C3: when agent `i` of a population executes a successful buy, every
other agent's entire private state (budget, inventory, memory) is
unchanged — in particular the seller's — and the sum of all budgets drops
by exactly `price * quantity`: the debited money is credited to no agent
and leaves the system. -/
theorem C3_only_buyer_changes (agents : List TradingAgent) (i : ℕ)
    (a : TradingAgent) (w : MarketWorld) (params : List (String × PyVal))
    (now : ℕ) (data : TradeRecord)
    (hi : agents[i]? = some a)
    (hs : (handle_buy a w params now).2.2 = .success data) :
    (∀ j, j ≠ i → (buyStep agents i w params now).1[j]? = agents[j]?) ∧
    ((buyStep agents i w params now).1.map TradingAgent.budget).sum =
      (agents.map TradingAgent.budget).sum -
        data.price * (data.quantity : ℚ) := by
  have hb := handle_buy_success a w params now data hs
  have hstep : (buyStep agents i w params now).1 =
      agents.set i (handle_buy a w params now).1 := by
    simp [buyStep, hi]
  constructor
  · intro j hj
    rw [hstep]
    exact List.getElem?_set_ne (Ne.symm hj)
  · rw [hstep, sum_budget_set agents i a ((handle_buy a w params now).1) hi,
      hb.1]
    ring

/-- Witness for C3 with a two-agent population in which agent 1 buys
agent 0's posted offer. -/
theorem C3_only_buyer_changes_witness :
    (∀ j, j ≠ 1 →
      (buyStep [⟨"S", "seller", 0, [], MemoryStream.init⟩,
          ⟨"B", "buyer", 100, [], MemoryStream.init⟩] 1
        ⟨[], [⟨1, "S", "Wood", 15, 10, 0⟩], 1⟩
        [("offer_id", PyVal.int 1)] 1).1[j]? =
      [⟨"S", "seller", 0, [], MemoryStream.init⟩,
        ⟨"B", "buyer", 100, [], MemoryStream.init⟩][j]?) ∧
    ((buyStep [⟨"S", "seller", 0, [], MemoryStream.init⟩,
        ⟨"B", "buyer", 100, [], MemoryStream.init⟩] 1
      ⟨[], [⟨1, "S", "Wood", 15, 10, 0⟩], 1⟩
      [("offer_id", PyVal.int 1)] 1).1.map TradingAgent.budget).sum =
      ([⟨"S", "seller", 0, [], MemoryStream.init⟩,
        ⟨"B", "buyer", 100, [], MemoryStream.init⟩].map
          TradingAgent.budget).sum -
        (15 : ℚ) * ((10 : ℤ) : ℚ) :=
  C3_only_buyer_changes
    [⟨"S", "seller", 0, [], MemoryStream.init⟩,
     ⟨"B", "buyer", 100, [], MemoryStream.init⟩] 1
    ⟨"B", "buyer", 100, [], MemoryStream.init⟩
    ⟨[], [⟨1, "S", "Wood", 15, 10, 0⟩], 1⟩
    [("offer_id", PyVal.int 1)] 1
    { timestamp := 1, seller := "S", buyer := "B", item := "Wood",
      price := 15, quantity := 10 }
    rfl (by with_unfolding_all rfl)

/-- C6: `execute_trade` on an unknown offer id returns the tagged
"Offer not found" error and changes nothing; the failure is idempotent
(the second call with the same id returns the same error); and the
buyer's `_handle_buy` then debits nothing, credits no inventory, and
appends exactly one importance-4 memory entry describing the failed
attempt. -/
theorem C6_unknown_offer (w : MarketWorld) (buyer : String) (oid : ℤ)
    (now : ℕ) (a : TradingAgent) (params : List (String × PyVal))
    (q? : Option ℤ)
    (hfind : findOffer w oid = Option.none)
    (hoid : pyGet params "offer_id" = PyVal.int oid)
    (hq : safe_int (pyGet params "quantity") "quantity" = .ok q?) :
    execute_trade w buyer oid now = (w, .error "Offer not found") ∧
    execute_trade (execute_trade w buyer oid now).1 buyer oid now =
      (w, .error "Offer not found") ∧
    (handle_buy a w params now).1.budget = a.budget ∧
    (handle_buy a w params now).1.inventory = a.inventory ∧
    (handle_buy a w params now).1.memory.entries = a.memory.entries ++
      [⟨"Attempted to buy offer " ++ toString oid ++ " but failed: " ++
          "Offer not found", 4, now, []⟩] ∧
    (handle_buy a w params now).2.1 = w ∧
    (handle_buy a w params now).2.2 = .failed "Offer not found" := by
  have hE : execute_trade w buyer oid now = (w, .error "Offer not found") := by
    simp only [execute_trade, hfind]
  have hE2 : execute_trade w a.name oid now = (w, .error "Offer not found") := by
    simp only [execute_trade, hfind]
  have h1 : safe_int (pyGet params "offer_id") "offer_id" = .ok (some oid) := by
    rw [hoid]
    exact safe_int_int oid "offer_id"
  refine ⟨hE, by rw [hE]; exact hE, ?_, ?_, ?_, ?_, ?_⟩ <;>
    simp [handle_buy, h1, hq, hE2, MemoryStream.add_memory]

/-- Witness for C6 at an empty market and the unknown offer id 5. -/
theorem C6_unknown_offer_witness :
    execute_trade MarketWorld.init "B" 5 3 = (MarketWorld.init, .error "Offer not found") ∧
    execute_trade (execute_trade MarketWorld.init "B" 5 3).1 "B" 5 3 =
      (MarketWorld.init, .error "Offer not found") ∧
    (handle_buy ⟨"B", "buyer", 100, [], MemoryStream.init⟩ MarketWorld.init
      [("offer_id", PyVal.int 5)] 3).1.budget = (100 : ℚ) ∧
    (handle_buy ⟨"B", "buyer", 100, [], MemoryStream.init⟩ MarketWorld.init
      [("offer_id", PyVal.int 5)] 3).1.inventory = [] ∧
    (handle_buy ⟨"B", "buyer", 100, [], MemoryStream.init⟩ MarketWorld.init
      [("offer_id", PyVal.int 5)] 3).1.memory.entries =
      MemoryStream.init.entries ++
      [⟨"Attempted to buy offer " ++ toString (5 : ℤ) ++ " but failed: " ++
          "Offer not found", 4, 3, []⟩] ∧
    (handle_buy ⟨"B", "buyer", 100, [], MemoryStream.init⟩ MarketWorld.init
      [("offer_id", PyVal.int 5)] 3).2.1 = MarketWorld.init ∧
    (handle_buy ⟨"B", "buyer", 100, [], MemoryStream.init⟩ MarketWorld.init
      [("offer_id", PyVal.int 5)] 3).2.2 = .failed "Offer not found" :=
  C6_unknown_offer MarketWorld.init "B" 5 3
    ⟨"B", "buyer", 100, [], MemoryStream.init⟩
    [("offer_id", PyVal.int 5)] Option.none rfl rfl rfl

/-- C7: whenever `_handle_post` does not commit a post (it rejected the
command with one of its diagnostics — missing/invalid parameter, item not
in inventory, or insufficient count), the agent's inventory, budget and
memory and the market's open-offer set and trade history are exactly as
before. -/
theorem C7_post_reject_frame (a : TradingAgent) (w : MarketWorld)
    (params : List (String × PyVal)) (now : ℕ)
    (h : (handle_post a w params now).2.2.isPosted = false) :
    (handle_post a w params now).1 = a ∧
    (handle_post a w params now).2.1 = w := by
  rcases handle_post_cases a w params now with hc | hc
  · rw [h] at hc
    cases hc
  · exact hc

/-- Witness for C7 at the spec scenario: inventory Wood ↦ 10, posting
qty 15 is rejected as insufficient and nothing changes. -/
theorem C7_post_reject_frame_witness :
    ((handle_post ⟨"S", "seller", 100, [("Wood", 10)], MemoryStream.init⟩
        MarketWorld.init
        [("item", PyVal.str "Wood"), ("price", PyVal.float 5),
         ("qty", PyVal.int 15)] 0).1 =
      ⟨"S", "seller", 100, [("Wood", 10)], MemoryStream.init⟩ ∧
     (handle_post ⟨"S", "seller", 100, [("Wood", 10)], MemoryStream.init⟩
        MarketWorld.init
        [("item", PyVal.str "Wood"), ("price", PyVal.float 5),
         ("qty", PyVal.int 15)] 0).2.1 = MarketWorld.init) ∧
    (handle_post ⟨"S", "seller", 100, [("Wood", 10)], MemoryStream.init⟩
        MarketWorld.init
        [("item", PyVal.str "Wood"), ("price", PyVal.float 5),
         ("qty", PyVal.int 15)] 0).2.2 = .insufficient 15 10 :=
  ⟨C7_post_reject_frame ⟨"S", "seller", 100, [("Wood", 10)], MemoryStream.init⟩
      MarketWorld.init
      [("item", PyVal.str "Wood"), ("price", PyVal.float 5),
       ("qty", PyVal.int 15)] 0 (by with_unfolding_all decide),
   by with_unfolding_all decide⟩

/-- C9: a `PostCommand` that passes the controller's validation (item
non-empty, price > 0, quantity a positive integer not exceeding the
available inventory count) always commits: `post_offer`'s rejection
branch is unreachable (the outcome is `posted (some id)` with the fresh
id, never `posted none`), and the seller's inventory for the item is
decremented by exactly the posted quantity, remaining non-negative. -/
theorem C9_validated_post_commits (a : TradingAgent) (w : MarketWorld)
    (params : List (String × PyVal)) (now : ℕ) (item : String) (price : ℚ)
    (qty : ℤ)
    (hitem : safe_str (pyGet params "item") = some item)
    (hne : item ≠ "")
    (hprice : safe_float (pyGet params "price") "price" = .ok (some price))
    (hppos : 0 < price)
    (hqty : safe_int (pyGet params "qty") "qty" = .ok (some qty))
    (hqpos : 0 < qty)
    (hmem : (dictGet a.inventory item).isSome)
    (havail : qty ≤ invGet a.inventory item) :
    (handle_post a w params now).2.2 = .posted (some (w.offer_counter + 1)) ∧
    invGet (handle_post a w params now).1.inventory item =
      invGet a.inventory item - qty ∧
    0 ≤ invGet (handle_post a w params now).1.inventory item := by
  have c1 : strFalsy (some item) = false := by simp [strFalsy, hne]
  have c2 : (decide (price ≤ 0)) = false := decide_eq_false (not_le.mpr hppos)
  have c3 : (decide (qty ≤ 0)) = false := decide_eq_false (not_le.mpr hqpos)
  obtain ⟨v, hv⟩ := Option.isSome_iff_exists.mp hmem
  have c5 : ¬ (qty > invGet a.inventory item) := not_lt.mpr havail
  have hpost2 : (post_offer w a.name item price (qty : ℚ) now).2 =
      some (w.offer_counter + 1) := by
    simp [post_offer, pyRound_intCast, not_le.mpr hqpos]
  refine ⟨?_, ?_, ?_⟩
  · simp [handle_post, hitem, hprice, hqty, c1, c2, c3, hv, c5, hpost2,
      Option.elim]
  · simp [handle_post, hitem, hprice, hqty, c1, c2, c3, hv, c5,
      invGet_invSet, Option.elim]
  · simp [handle_post, hitem, hprice, hqty, c1, c2, c3, hv, c5,
      invGet_invSet, Option.elim]
    omega

/-- Witness for C9: a validated post of 4 Wood at price 5 out of 10 in
stock commits with the fresh offer id and leaves 6 Wood, non-negative. -/
theorem C9_validated_post_commits_witness :
    (handle_post ⟨"S", "seller", 100, [("Wood", 10)], MemoryStream.init⟩
        MarketWorld.init
        [("item", PyVal.str "Wood"), ("price", PyVal.float 5),
         ("qty", PyVal.int 4)] 0).2.2 =
      .posted (some (MarketWorld.init.offer_counter + 1)) ∧
    invGet (handle_post ⟨"S", "seller", 100, [("Wood", 10)], MemoryStream.init⟩
        MarketWorld.init
        [("item", PyVal.str "Wood"), ("price", PyVal.float 5),
         ("qty", PyVal.int 4)] 0).1.inventory "Wood" =
      invGet [("Wood", 10)] "Wood" - 4 ∧
    0 ≤ invGet (handle_post ⟨"S", "seller", 100, [("Wood", 10)], MemoryStream.init⟩
        MarketWorld.init
        [("item", PyVal.str "Wood"), ("price", PyVal.float 5),
         ("qty", PyVal.int 4)] 0).1.inventory "Wood" :=
  C9_validated_post_commits
    ⟨"S", "seller", 100, [("Wood", 10)], MemoryStream.init⟩ MarketWorld.init
    [("item", PyVal.str "Wood"), ("price", PyVal.float 5),
     ("qty", PyVal.int 4)] 0 "Wood" 5 4
    (by with_unfolding_all rfl) (by decide)
    (by with_unfolding_all rfl) (by with_unfolding_all decide)
    (by with_unfolding_all rfl) (by decide)
    (by decide) (by decide)

/-- C10: memory retrieval scores each entry as recency decay plus
`importance / 10` plus a 1.0 bonus when the queried partner matches the
entry's recorded partner metadata; the returned list is the content
strings of the top `limit` scored entries; the retained scored entries
are a permutation of the scored input, are in descending score order, and
any two with identical score keep their original insertion order. -/
theorem C10_memory_ranking (m : MemoryStream) (query : String)
    (partner : Option String) (limit : ℕ) (now : ℕ) :
    retrieve_relevant_memories m query partner limit now =
      ((List.insertionSort rankRel (scoredEntries m partner now)).take
        limit).map (fun t => t.2.2.content) ∧
    List.Perm (List.insertionSort rankRel (scoredEntries m partner now))
      (scoredEntries m partner now) ∧
    (∀ x ∈ List.insertionSort rankRel (scoredEntries m partner now),
      x.1 = entryScore m.decay_factor now partner x.2.2) ∧
    ((List.insertionSort rankRel (scoredEntries m partner now)).take
      limit).Pairwise (fun x y => y.1 ≤ x.1) ∧
    ((List.insertionSort rankRel (scoredEntries m partner now)).take
      limit).Pairwise (fun x y => x.1 = y.1 → x.2.1 ≤ y.2.1) := by
  have hsorted : List.Sorted rankRel
      (List.insertionSort rankRel (scoredEntries m partner now)) :=
    List.sorted_insertionSort rankRel _
  have htake : ((List.insertionSort rankRel
      (scoredEntries m partner now)).take limit).Pairwise rankRel :=
    List.Pairwise.sublist (List.take_sublist _ _) hsorted
  have himp1 : ∀ {x y : ℚ × ℕ × MemoryEntry}, rankRel x y → y.1 ≤ x.1 := by
    intro x y hr
    unfold rankRel at hr
    rcases hr with h | ⟨h, _⟩
    · exact le_of_lt h
    · exact le_of_eq h.symm
  have himp2 : ∀ {x y : ℚ × ℕ × MemoryEntry},
      rankRel x y → (x.1 = y.1 → x.2.1 ≤ y.2.1) := by
    intro x y hr heq
    unfold rankRel at hr
    rcases hr with h | ⟨_, hi⟩
    · rw [heq] at h
      exact absurd h (lt_irrefl _)
    · exact hi
  refine ⟨rfl, List.perm_insertionSort rankRel _, ?_, ?_, ?_⟩
  · intro x hx
    have hx' : x ∈ scoredEntries m partner now :=
      (List.mem_insertionSort rankRel).mp hx
    simp only [scoredEntries, List.mem_map] at hx'
    obtain ⟨p, hp, rfl⟩ := hx'
    rfl
  · exact htake.imp himp1
  · exact htake.imp himp2

end Marketplace
